import Mathlib

/-!
Shallow embedding of the Covalic Girder plugin (challenge/phase/submission
scoring platform) and proofs about the claims of its specification.

Sources embedded:
* `server/models/submission.py` — `Submission.validate`, `Submission.createSubmission`,
  `Submission.updateFolderAccess`, `Submission.scoreSubmission`
* `server/rest/submission.py` — `Submission.postSubmission`, `Submission.postScore`,
  the registered routes
* `server/rest/challenge.py`, `server/rest/phase.py` — the registered routes
* `server/__init__.py` — `validateSettings`, `onPhaseSave`

Girder framework primitives (Mongo-backed model save/update/remove, access
control lists, job scheduling, uploads, tokens) are embedded as explicit
state passing over lists of documents; document ids are `Nat`.  The scoring
module (`computeAverageScores`, `computeOverallScore`) and the date parser
(`validateDate`) are not part of the provided sources, so they are held as
abstract function parameters bundled in `Env`; the claims do not depend on
their values.
-/

set_option maxHeartbeats 1000000

deriving instance DecidableEq for Except

namespace Covalic

/-- Girder `AccessType` levels: READ = 0, WRITE = 1, ADMIN = 2. -/
def READ : Nat := 0

def WRITE : Nat := 1

def ADMIN : Nat := 2

/-- One user (or group) entry of an access list, as returned by
`getFullAccessList`: an id together with its access level. -/
structure AccessEntry where
  id : Nat
  level : Nat
deriving DecidableEq, Repr

/-- A Girder user document (the fields this plugin reads). -/
structure User where
  id : Nat
  firstName : String
  lastName : String
  admin : Bool
  groups : List Nat
deriving DecidableEq, Repr

/-- A Girder folder document: creator, per-user ACL and per-group ACL. -/
structure Folder where
  id : Nat
  name : String
  creatorId : Nat
  acl : List AccessEntry
  groupAcl : List AccessEntry
deriving DecidableEq, Repr

/-- A challenge phase document (the fields this plugin's submission flow reads). -/
structure Phase where
  id : Nat
  name : String
  active : Bool
  participantGroupId : Nat
  groundTruthFolderId : Nat
  userAcl : List AccessEntry
  groupAcl : List AccessEntry
deriving DecidableEq, Repr

/-- A metric value posted by the scoring service: `null`, a number or a string
(per the JSON schema of `postScore`). -/
inductive MVal
  | null
  | num (n : Int)
  | str (s : String)
deriving DecidableEq, Repr

/-- One metric of a score payload. -/
structure Metric where
  name : String
  value : MVal
deriving DecidableEq, Repr

/-- One per-dataset entry of a score payload. -/
structure DatasetScore where
  dataset : String
  metrics : List Metric
deriving DecidableEq, Repr

/-- The score payload of a submission: a list of per-dataset metric arrays. -/
abbrev Score := List DatasetScore

/-- A covalic submission document.  An absent Mongo field is `none`
(`latest` is a plain flag: absent and `false` coincide). -/
structure SubDoc where
  id : Nat
  creatorId : Nat
  creatorName : String
  phaseId : Nat
  folderId : Nat
  created : Option String
  score : Option Score
  overallScore : Option Int
  latest : Bool
  title : Option String
  approach : Option String
  jobId : Option Nat
  organization : Option String
  organizationUrl : Option String
  documentationUrl : Option String
  meta : List (String × String)
deriving DecidableEq, Repr

/-- A worker job document (the fields `scoreSubmission` sets; the `kwargs`
task payload handed to the worker is framework data and is not modelled). -/
structure Job where
  id : Nat
  title : String
  type : String
  handler : String
  userId : Option Nat
  rescoring : Bool
  covalicSubmissionId : Option Nat
  scheduled : Bool
deriving DecidableEq, Repr

/-- An upload document created by `Upload().createUpload`. -/
structure Upload where
  id : Nat
  userId : Nat
  name : Option String
  parentId : Nat
  size : Nat
  received : Nat
deriving DecidableEq, Repr

/-- A file document produced when an upload completes. -/
structure FileDoc where
  id : Nat
  name : Option String
  folderId : Nat
  size : Nat
deriving DecidableEq, Repr

/-- The persistent state the plugin touches: the model collections, the
plugin's scoring-user-id setting, the clock, and fresh-id counters. -/
structure St where
  users : List User
  phases : List Phase
  folders : List Folder
  submissions : List SubDoc
  jobs : List Job
  uploads : List Upload
  files : List FileDoc
  tokens : List Nat
  settings : Option Nat
  now : String
  nextSubmissionId : Nat
  nextJobId : Nat
  nextUploadId : Nat
  nextFileId : Nat
  nextTokenId : Nat
deriving DecidableEq, Repr

/-- The functions of this repository that are not part of the provided
sources, held abstract: the `scoring` module's `computeAverageScores` (which
also returns the score array it updates in place) and `computeOverallScore`,
and the utility `validateDate` (`none` models a raised `ValidationException`). -/
structure Env where
  computeAverageScores : Score → Score
  computeOverallScore : SubDoc → Option Phase → Int
  validateDate : String → Option String

/-- The framework exception types this plugin raises (section 7 of the spec),
plus `pyError` for a plain Python error (e.g. indexing `None`), which is not a
Girder exception. -/
inductive Err
  | validation (msg : String)
  | access (msg : String)
  | rest (msg : String)
  | girder (msg : String)
  | pyError (msg : String)
deriving DecidableEq, Repr

/-- In Girder, `ValidationException` is a subclass of `GirderException`, so an
`except GirderException` clause catches both. -/
def isGirderException : Err → Bool
  | .girder _ => true
  | .validation _ => true
  | _ => false

/-! ## `Submission.validate` and model save (`server/models/submission.py`, lines 53-76) -/

/-- Lines 54-55: `if doc.get('created'): doc['created'] = validateDate(...)`.
An absent or empty (falsy) `created` is left alone; otherwise the date is
parsed, a parse failure raising `ValidationException`. -/
def validateCreated (env : Env) (doc : SubDoc) : Except Err SubDoc :=
  match doc.created with
  | none => .ok doc
  | some c =>
    if c = "" then .ok doc
    else match env.validateDate c with
      | some c2 => .ok { doc with created := some c2 }
      | none => .error (.validation "Invalid date format.")

/-- Lines 57-58: `if doc.get('approach') in {'default', ''}: del doc['approach']`. -/
def dropDefaultApproach (doc : SubDoc) : SubDoc :=
  if doc.approach == some "default" || doc.approach == some "" then
    { doc with approach := none }
  else doc

/-- The Mongo query of the `Model.update` on lines 67-74: same `phaseId`,
`creatorId` and `approach` as the document being validated, and `latest` set.
A missing `approach` (query value `None`) matches documents without the field. -/
def clearLatestQuery (doc s : SubDoc) : Bool :=
  s.phaseId == doc.phaseId && s.creatorId == doc.creatorId &&
    s.approach == doc.approach && s.latest

/-- Lines 60-74: when the document has a score but no overall score yet,
average the scores in place, load the phase, compute the overall score, mark
the document `latest`, and clear `latest` on the rest of its group. -/
def validateScore (env : Env) (st : St) (doc : SubDoc) : Except Err (SubDoc × St) :=
  match doc.score, doc.overallScore with
  | some sc, none =>
    let doc2 := { doc with score := some (env.computeAverageScores sc) }
    let phase := st.phases.find? (fun p => p.id == doc2.phaseId)
    let doc3 := { doc2 with
      overallScore := some (env.computeOverallScore doc2 phase),
      latest := true }
    let subs := st.submissions.map (fun s =>
      if clearLatestQuery doc3 s then { s with latest := false } else s)
    .ok (doc3, { st with submissions := subs })
  | _, _ => .ok (doc, st)

/-- `Submission.validate` (lines 53-76). -/
def validateSub (env : Env) (st : St) (doc : SubDoc) : Except Err (SubDoc × St) :=
  match validateCreated env doc with
  | .error e => .error e
  | .ok doc0 => validateScore env st (dropDefaultApproach doc0)

/-- Mongo save of a document with a fixed `_id`: replace the document with
that id if present, else insert it. -/
def upsert (subs : List SubDoc) (doc : SubDoc) : List SubDoc :=
  if subs.any (fun s => s.id == doc.id) then
    subs.map (fun s => if s.id == doc.id then doc else s)
  else subs ++ [doc]

/-- `Model.save` of a submission: run `Submission.validate`, then store the
validated document. -/
def saveSub (env : Env) (st : St) (doc : SubDoc) : Except Err (SubDoc × St) :=
  match validateSub env st doc with
  | .error e => .error e
  | .ok (doc', st') =>
    .ok (doc', { st' with submissions := upsert st'.submissions doc' })

/-- The validated document produced by a save whose score branch runs
(shorthand used by the theorems; `doc` is the document after the `created`
and `approach` normalisation). -/
def scoredDoc (env : Env) (st : St) (doc : SubDoc) (sc : Score) : SubDoc :=
  let doc2 := { doc with score := some (env.computeAverageScores sc) }
  { doc2 with
    overallScore := some (env.computeOverallScore doc2
      (st.phases.find? (fun p => p.id == doc2.phaseId))),
    latest := true }

/-- The document `postScore` saves: the incoming submission with
`overallScore` popped and `score` set to the posted payload, as `validate`
then rewrites it (shorthand used by the theorems). -/
def postScoredDoc (env : Env) (st : St) (submission : SubDoc) (score : Score) : SubDoc :=
  scoredDoc env st { submission with overallScore := none, score := some score } score

/-! ## `Submission.updateFolderAccess` (`server/models/submission.py`, lines 109-155)
and the `onPhaseSave` hook (`server/__init__.py`, lines 99-107) -/

/-- Girder's `AccessControlledModel.setUserAccess`: drop the user's entry from
the ACL and, when a level is given, append a fresh entry at that level. -/
def setUserAccess (f : Folder) (uid : Nat) (level : Option Nat) : Folder :=
  let acl := f.acl.filter (fun e => e.id != uid)
  match level with
  | none => { f with acl := acl }
  | some l => { f with acl := acl ++ [{ id := uid, level := l }] }

/-- Lines 120-123: the ids of the users with WRITE-or-higher access on the
phase (a Python `set`, hence deduplicated). -/
def phaseAdminUserIds (phase : Phase) : List Nat :=
  ((phase.userAcl.filter (fun e => WRITE ≤ e.level)).map (fun e => e.id)).dedup

/-- Lines 135-141: the ids of the folder-ACL users to revoke — on the ACL but
neither phase admins nor the folder's creator. -/
def toRemoveIds (adminIds : List Nat) (f : Folder) : List Nat :=
  (f.acl.filter (fun e =>
    !(adminIds.contains e.id) && e.id != f.creatorId)).map (fun e => e.id)

/-- Lines 145-147: the phase admins to grant READ — every admin but the
folder's creator. -/
def toAddIds (adminIds : List Nat) (f : Folder) : List Nat :=
  adminIds.filter (fun uid => uid != f.creatorId)

/-- Lines 130-153, the body of the per-submission loop for one folder:
revoke access of ACL users who are neither phase admins nor the folder's
creator, then grant READ to every phase admin other than the creator.
`usersDb` holds the existing user ids; `none` models the
`ValidationException` of a `userModel.load(..., exc=True)` on a vanished
user. -/
def updateFolderAccessOne (usersDb : List Nat) (phase : Phase) (f : Folder) : Option Folder :=
  let adminIds := phaseAdminUserIds phase
  if (toRemoveIds adminIds f).all (fun uid => usersDb.contains uid) then
    let f1 := (toRemoveIds adminIds f).foldl (fun g uid => setUserAccess g uid none) f
    some ((toAddIds adminIds f).foldl (fun g uid => setUserAccess g uid (some READ)) f1)
  else none

/-- The `for sub in submissions` loop (lines 129-153): load each submission's
folder, skip it when it does not exist, rewrite its ACL and save it. -/
def updateFolderAccessLoop (usersDb : List Nat) (phase : Phase) :
    List SubDoc → List Folder → Option (List Folder)
  | [], fs => some fs
  | sub :: rest, fs =>
    match fs.find? (fun f => f.id == sub.folderId) with
    | none => updateFolderAccessLoop usersDb phase rest fs
    | some f =>
      match updateFolderAccessOne usersDb phase f with
      | none => none
      | some f' =>
        updateFolderAccessLoop usersDb phase rest
          (fs.map (fun g => if g.id == sub.folderId then f' else g))

/-- `Submission.updateFolderAccess` (lines 109-155).  The phase admin users
are loaded once, with `exc=True`, before the loop; the `except TypeError`
branch (a non-iterable `submissions` argument) has no typed counterpart. -/
def updateFolderAccess (usersDb : List Nat) (phase : Phase) (subs : List SubDoc)
    (folders : List Folder) : Option (List Folder) :=
  if (phaseAdminUserIds phase).all (fun uid => usersDb.contains uid) then
    updateFolderAccessLoop usersDb phase subs folders
  else none

/-- Modelled from the spec: `Submission.getAllSubmissions`, called by
`onPhaseSave` but absent from the provided sources; per the spec
("reconcile folder permissions with phase administrators" over "its
submission folders") it returns the submissions of the given phase. -/
def getAllSubmissions (subs : List SubDoc) (phase : Phase) : List SubDoc :=
  subs.filter (fun s => s.phaseId == phase.id)

/-- The `model.challenge_phase.save.after` hook (`server/__init__.py`,
lines 99-107): after a phase save, synchronize the ACLs of all the phase's
submission folders. -/
def onPhaseSave (usersDb : List Nat) (subsDb : List SubDoc) (phase : Phase)
    (folders : List Folder) : Option (List Folder) :=
  updateFolderAccess usersDb phase (getAllSubmissions subsDb phase) folders

/-- The folder ACL state `updateFolderAccess` establishes: every phase admin
other than the folder's creator holds exactly one ACL entry, at READ level,
and every ACL entry belongs to a phase admin or to the folder's creator. -/
def mirrorsPhaseAdmins (phase : Phase) (g : Folder) : Prop :=
  (∀ uid ∈ phaseAdminUserIds phase, uid ≠ g.creatorId →
    g.acl.filter (fun e => e.id == uid) = [{ id := uid, level := READ }]) ∧
  (∀ e ∈ g.acl, e.id ∈ phaseAdminUserIds phase ∨ e.id = g.creatorId)

/-! ## `Submission.scoreSubmission` (`server/models/submission.py`, lines 157-264) -/

/-- Girder's `AccessControlledModel.hasAccess` on a phase: site admins pass,
otherwise the user needs a user-ACL entry or a group-ACL entry (through one
of the user's groups) at or above the level. -/
def hasAccessPhase (p : Phase) (u : User) (level : Nat) : Bool :=
  u.admin || p.userAcl.any (fun e => e.id == u.id && level ≤ e.level)
    || p.groupAcl.any (fun e => u.groups.contains e.id && level ≤ e.level)

/-- `hasAccess` on a folder. -/
def hasAccessFolder (f : Folder) (u : User) (level : Nat) : Bool :=
  u.admin || f.acl.any (fun e => e.id == u.id && level ≤ e.level)
    || f.groupAcl.any (fun e => u.groups.contains e.id && level ≤ e.level)

/-- `Submission.scoreSubmission` (lines 157-264): build and schedule a worker
job for the submission and save the submission with the job's id.  The first
component is the handler's outcome, the second the state it leaves behind.
The worker `kwargs` payload (lines 212-257) is framework job data and is kept
only as the job's `covalicSubmissionId` backlink. -/
def scoreSubmission (st : St) (submission : SubDoc) (apiUrl : String) :
    Except Err SubDoc × St :=
  match st.phases.find? (fun p => p.id == submission.phaseId) with
  | none => (.error (.pyError "phase is None"), st)
  | some phase =>
  match st.folders.find? (fun f => f.id == submission.folderId) with
  | none => (.error (.pyError "folder is None"), st)
  | some folder =>
  let user := st.users.find? (fun u => u.id == submission.creatorId)
  -- lines 172-174: otherFields['rescoring'] when 'overallScore' in submission
  let rescoring := submission.overallScore.isSome
  let jobTitle := phase.name ++ " submission: " ++ folder.name
  -- lines 177-179: jobModel.createJob(...)
  let job : Job := { id := st.nextJobId, title := jobTitle, type := "covalic_score",
                     handler := "worker_handler", userId := user.map (fun u => u.id),
                     rescoring := rescoring, covalicSubmissionId := none,
                     scheduled := false }
  let st := { st with jobs := st.jobs ++ [job], nextJobId := st.nextJobId + 1 }
  -- lines 181-184: unset scoring user id
  match st.settings with
  | none =>
    (.error (.girder "No scoring user ID is set. Please set one on the plugin configuration page."), st)
  | some scoreUserId =>
  -- lines 186-188: scoring user does not load
  match st.users.find? (fun u => u.id == scoreUserId) with
  | none =>
    (.error (.girder ("Invalid scoring user setting (" ++ toString scoreUserId ++ ").")), st)
  | some scoreUser =>
  -- line 190: tokenModel.createToken(user=scoreUser, days=7)
  let scoreToken := st.nextTokenId
  let st := { st with tokens := st.tokens ++ [scoreToken],
                      nextTokenId := st.nextTokenId + 1 }
  -- lines 191-192: grant the scoring user READ on the submission folder
  let st := { st with folders := st.folders.map (fun (g : Folder) =>
    if g.id == folder.id then setUserAccess g scoreUser.id (some READ) else g) }
  -- line 194: load the ground truth folder
  match st.folders.find? (fun (f : Folder) => f.id == phase.groundTruthFolderId) with
  | none => (.error (.pyError "ground truth folder is None"), st)
  | some groundTruth =>
  -- lines 196-198: ensure the scoring user administers the phase
  let st := if hasAccessPhase phase scoreUser ADMIN then st
    else { st with phases := st.phases.map (fun (p : Phase) =>
      if p.id == phase.id then
        { p with userAcl := (p.userAcl.filter (fun e => e.id != scoreUser.id)) ++
            [{ id := scoreUser.id, level := ADMIN }] }
      else p) }
  -- lines 200-202: ensure the scoring user can read the ground truth folder
  let st := if hasAccessFolder groundTruth scoreUser READ then st
    else { st with folders := st.folders.map (fun (g : Folder) =>
      if g.id == groundTruth.id then setUserAccess g scoreUser.id (some READ) else g) }
  -- lines 258-261: save the job with its submission backlink, then schedule it
  let job := { job with covalicSubmissionId := some submission.id }
  let st := { st with jobs := st.jobs.map (fun (j : Job) => if j.id == job.id then job else j) }
  let job := { job with scheduled := true }
  let st := { st with jobs := st.jobs.map (fun (j : Job) => if j.id == job.id then job else j) }
  -- lines 263-264: submission['jobId'] = job['_id']; save(submission, validate=False)
  let submission := { submission with jobId := some job.id }
  let st := { st with submissions := upsert st.submissions submission }
  (.ok submission, st)

/-! ## `Submission.createSubmission` (`server/models/submission.py`, lines 79-107) -/

/-- `Submission.getUserName` (lines 33-36). -/
def getUserName (u : User) : String := u.firstName ++ " " ++ u.lastName

/-- `Submission.createSubmission` (lines 79-107): build the document (Mongo
assigns the fresh `_id` on insert, modelled by the `nextSubmissionId`
counter), save it (with validation), then synchronize its folder's ACL with
the phase admins. -/
def createSubmission (env : Env) (st : St) (creator : User) (phase : Phase)
    (folder : Folder) (title : Option String) (created : Option String)
    (organization organizationUrl documentationUrl approach : Option String)
    (meta : Option (List (String × String))) : Except Err (SubDoc × St) :=
  let submission : SubDoc := {
    id := st.nextSubmissionId,
    creatorId := creator.id,
    creatorName := getUserName creator,
    phaseId := phase.id,
    folderId := folder.id,
    -- line 87: 'created': created or datetime.datetime.utcnow()
    created := some (match created with
      | some c => if c = "" then st.now else c
      | none => st.now),
    score := none,
    overallScore := none,
    latest := false,
    title := title,
    approach := approach,
    jobId := none,
    organization := organization,
    organizationUrl := organizationUrl,
    documentationUrl := documentationUrl,
    meta := meta.getD [] }
  match saveSub env { st with nextSubmissionId := st.nextSubmissionId + 1 } submission with
  | .error e => .error e
  | .ok (submission, st) =>
    -- line 106: self.updateFolderAccess(phase, (submission,))
    match updateFolderAccess (st.users.map (fun u => u.id)) phase [submission] st.folders with
    | none => .error (.validation "Invalid user.")
    | some folders' => .ok (submission, { st with folders := folders' })

/-! ## `Submission.postSubmission` (`server/rest/submission.py`, lines 68-145) -/

/-- The parameters of the `POST covalic_submission` route (`phaseId` and
`folderId` are resolved to documents by the `modelParam` decorators before
the handler body runs). -/
structure PostSubmissionParams where
  title : Option String
  date : Option String
  userId : Option Nat
  meta : Option (List (String × String))
deriving DecidableEq, Repr

/-- Lines 96-98: the phase is inactive and the caller is anonymous or not a
site admin. -/
def inactiveBlocked (phase : Phase) (user : Option User) : Bool :=
  !phase.active && (match user with | none => true | some u => !u.admin)

/-- Lines 112-116: site admins may override the submission creation date
(`requireAdmin` raises `AccessException` otherwise). -/
def overrideCreatedDate (user : User) (date : Option String) : Except Err (Option String) :=
  match date with
  | none => .ok none
  | some d =>
    if user.admin then .ok (some d)
    else .error (.access
      "Administrator access required to override the submission creation date.")

/-- Lines 118-123: site admins may submit on behalf of another user, loaded
with `exc=True`. -/
def resolveCreator (st : St) (user : User) (userIdParam : Option Nat) : Except Err User :=
  match userIdParam with
  | none => .ok user
  | some uid =>
    if !user.admin then
      .error (.access
        "Administrator access required to submit to this phase on behalf of another user.")
    else match st.users.find? (fun u => u.id == uid) with
      | some u2 => .ok u2
      | none => .error (.validation "No such user.")

/-- `Submission.postSubmission` (lines 93-145).  The `approach`,
`organization` and related parameters are commented out in the source, so the
model call passes `None` for them. -/
def postSubmission (env : Env) (st : St) (curUser : Option User) (phase : Phase)
    (folder : Folder) (params : PostSubmissionParams) (apiUrl : String) :
    Except Err SubDoc × St :=
  if inactiveBlocked phase curUser then
    (.error (.validation
      "You may not submit to this phase because it is not currently active."), st)
  else match params.title with
  | none => (.error (.rest "Parameter title is required."), st)
  | some title0 =>
  let title := title0.trim
  match curUser with
  | none => (.error (.pyError "user is None"), st)
  | some user =>
  -- lines 104-106: participant group membership, else WRITE access on the phase
  if !(user.groups.contains phase.participantGroupId) && !(hasAccessPhase phase user WRITE) then
    (.error (.access "Write access denied for phase."), st)
  else
  match overrideCreatedDate user params.date with
  | .error e => (.error e, st)
  | .ok created =>
  match resolveCreator st user params.userId with
  | .error e => (.error e, st)
  | .ok creator =>
  match createSubmission env st creator phase folder (some title) created
      none none none none params.meta with
  | .error e => (.error e, st)
  | .ok (submission, st1) =>
    -- lines 139-143: try scoreSubmission; on GirderException remove and re-raise
    match scoreSubmission st1 submission apiUrl with
    | (.ok submission2, st2) => (.ok submission2, st2)
    | (.error e, st2) =>
      if isGirderException e then
        (.error e, { st2 with submissions :=
          st2.submissions.filter (fun s => s.id != submission.id) })
      else (.error e, st2)

/-! ## `Submission.postScore` (`server/rest/submission.py`, lines 147-299) -/

/-- The outcome of `postScore`: normally the saved submission, but the dead
`size == 0` branch of the inserted upload code would return the upload's
file/upload document instead. -/
inductive PostScoreRet
  | sub (s : SubDoc)
  | upload (u : Upload)
deriving DecidableEq, Repr

/-- Stands for Python's `str(dict(submission))` (line 211-215 of
`rest/submission.py`): a brace-delimited rendering of the document.  Only its
length feeds the control flow (as the upload `size`), and a `dict` rendering
is never the empty string. -/
def reprDoc (s : SubDoc) : String :=
  "\x7b" ++ toString s.id ++ "\x7d"

/-- `Submission.postScore` (lines 186-299): require phase ADMIN access, save
the submission with the posted score (triggering the overall-score
computation in `validate`), run the inserted upload block (which writes the
document rendering into the submission folder as a file), delete the caller's
token, and return the saved submission.  In the upload block the local
`chunk` stays `None` (every assignment that could set it before the
`upload['size'] > 0` test is commented out) and `'chunk' not in params`, so
the body bytes are wrapped directly and handled in one chunk. -/
def postScore (env : Env) (st : St) (curUser : Option User) (submission : SubDoc)
    (score : Score) (curTokenId : Option Nat) : Except Err PostScoreRet × St :=
  -- lines 188-190: load the phase at ADMIN level, exc=True
  match st.phases.find? (fun p => p.id == submission.phaseId) with
  | none => (.error (.validation "Invalid phase id."), st)
  | some phase =>
  if !(match curUser with | some u => hasAccessPhase phase u ADMIN | none => false) then
    (.error (.access "Admin access was denied for the challenge phase."), st)
  else
  -- line 193: rescoring flag (recorded, then unused)
  let rescoring := submission.overallScore.isSome
  -- lines 196-198: pop overallScore, set score, save to recompute
  let submission := { submission with overallScore := none, score := some score }
  match saveSub env st submission with
  | .error e => (.error e, st)
  | .ok (submission, st) =>
  let _ := rescoring
  -- lines 211-216: dest1 = str(dict(submission)); size = len(dest1)
  let size := (reprDoc submission).length
  -- line 218: load the submission's creator
  let userOpt := st.users.find? (fun u => u.id == submission.creatorId)
  let name := submission.title
  -- lines 224-227: load the parent folder as that user at ADMIN level, exc=True
  match st.folders.find? (fun f => f.id == submission.folderId) with
  | none => (.error (.validation "Invalid folder id."), st)
  | some parent =>
  match userOpt with
  | none => (.error (.access "Admin access denied for folder."), st)
  | some user =>
  if !(hasAccessFolder parent user ADMIN) then
    (.error (.access "Admin access denied for folder."), st)
  else
  -- line 232: File().requireParams({'size': size}) — the key is present, passes
  -- lines 235-242: chunk stays None (the assignments are commented out)
  let chunk : Option Unit := none
  -- lines 250-252: Upload().createUpload(...)
  let upload : Upload := { id := st.nextUploadId, userId := user.id, name := name,
                           parentId := parent.id, size := size, received := 0 }
  let st := { st with uploads := st.uploads ++ [upload],
                      nextUploadId := st.nextUploadId + 1 }
  if upload.size > 0 then
    match chunk with
    | some _ => (.ok (.upload upload), st)
    | none =>
      -- lines 265-276: offset = 0; 'chunk' not in params, wrap the body bytes
      -- lines 279-285: ownership and offset checks on the fresh upload
      if upload.userId != user.id then
        (.error (.access "You did not initiate this upload."), st)
      else if upload.received != 0 then
        (.error (.rest "Server has received bytes, but client sent offset 0."), st)
      else
        -- line 287: Upload().handleChunk — the full body completes the upload
        let st := { st with
          uploads := st.uploads.filter (fun up => up.id != upload.id),
          files := st.files ++ [{ id := st.nextFileId, name := name,
                                  folderId := parent.id, size := size }],
          nextFileId := st.nextFileId + 1 }
        -- lines 296-297: delete the scoring user's job token
        match curTokenId with
        | none => (.error (.pyError "token is None"), st)
        | some tok =>
          let st := { st with tokens := st.tokens.filter (fun t => t != tok) }
          (.ok (.sub submission), st)
  else
    -- lines 262-263 (dead: a dict rendering is nonempty): finalize the empty
    -- upload and return its filtered document instead of the submission
    (.ok (.upload upload), st)

/-! ## Registered REST routes (`rest/challenge.py` line 32, `rest/phase.py`
line 35, `rest/submission.py` lines 39-40) -/

/-- One REST route binding: HTTP method, resource name, route path parts
(`:id` is a wildcard segment) and the bound handler. -/
structure Route where
  method : String
  resourceName : String
  path : List String
  handler : String
deriving DecidableEq, Repr

/-- `Challenge.__init__`: `self.route('POST', (), self.createChallenge)`. -/
def challengeRoutes : List Route :=
  [{ method := "POST", resourceName := "challenge", path := [],
     handler := "createChallenge" }]

/-- `Phase.__init__`: `self.route('POST', (), self.createPhase)`. -/
def phaseRoutes : List Route :=
  [{ method := "POST", resourceName := "challenge_phase", path := [],
     handler := "createPhase" }]

/-- `Submission.__init__`: the two `self.route` calls of lines 39-40. -/
def submissionRoutes : List Route :=
  [{ method := "POST", resourceName := "covalic_submission", path := [],
     handler := "postSubmission" },
   { method := "POST", resourceName := "covalic_submission", path := [":id", "score"],
     handler := "postScore" }]

/-- All routes the plugin's three resources register. -/
def covalicRoutes : List Route :=
  challengeRoutes ++ phaseRoutes ++ submissionRoutes

/-! ## `validateSettings` (`server/__init__.py`, lines 78-85) -/

/-- Modelled from the spec: the plugin settings key `SCORING_USER_ID` of the
`constants` module, which is not among the provided sources.  Only its
identity matters to `validateSettings`. -/
def SCORING_USER_ID : String := "covalic.scoring_user_id"

/-- The effect of the `model.setting.validate` hook on the event. -/
inductive SettingOutcome
  | rejected (msg : String)
  | handled
  | ignored
deriving DecidableEq, Repr

/-- `validateSettings` (lines 78-85): for the scoring-user-id key, a falsy
value (absent or empty) raises `ValidationException('Scoring user ID must
not be empty.')`; otherwise the value is loaded as a user with `exc=True`
(raising `ValidationException` when no such user exists) and the event is
accepted (`preventDefault().stopPropagation()`).  Other keys are ignored.
`userIds` holds the ids of the existing users, rendered as strings the way
the setting value names them. -/
def validateSettings (userIds : List String) (key : String) (value : Option String) :
    SettingOutcome :=
  if key = SCORING_USER_ID then
    match value with
    | none => .rejected "Scoring user ID must not be empty."
    | some v =>
      if v = "" then .rejected "Scoring user ID must not be empty."
      else if userIds.contains v then .handled
      else .rejected ("No such user: " ++ v ++ ".")
  else .ignored

/-! ## Concrete data used by the witnesses and counterexamples -/

/-- A concrete environment: score averaging is the identity, the overall
score is the constant 5, and every date string parses to itself. -/
def envId : Env :=
  { computeAverageScores := fun sc => sc,
    computeOverallScore := fun _ _ => 5,
    validateDate := fun c => some c }

/-- A participant user: member of group 10, not a site admin. -/
def uPart : User :=
  { id := 2, firstName := "Pat", lastName := "Person", admin := false, groups := [10] }

/-- A site admin user. -/
def uAdmin : User :=
  { id := 1, firstName := "Ada", lastName := "Admin", admin := true, groups := [] }

/-- The configured scoring user. -/
def uScore : User :=
  { id := 3, firstName := "Sam", lastName := "Scorer", admin := false, groups := [] }

/-- An active phase whose participant group is 10, whose ground truth folder
is 31, and whose only phase admin is user 1. -/
def phW : Phase :=
  { id := 20, name := "PhaseOne", active := true, participantGroupId := 10,
    groundTruthFolderId := 31, userAcl := [{ id := 1, level := 2 }], groupAcl := [] }

/-- The submission folder, administered by its creator (user 2). -/
def fSub : Folder :=
  { id := 30, name := "SubFolder", creatorId := 2,
    acl := [{ id := 2, level := 2 }], groupAcl := [] }

/-- The ground truth folder. -/
def fGT : Folder :=
  { id := 31, name := "GT", creatorId := 1, acl := [], groupAcl := [] }

/-- An empty base state. -/
def stEmpty : St :=
  { users := [], phases := [], folders := [], submissions := [], jobs := [],
    uploads := [], files := [], tokens := [], settings := none,
    now := "2020-01-01T00:00:00", nextSubmissionId := 100, nextJobId := 200,
    nextUploadId := 300, nextFileId := 400, nextTokenId := 500 }

/-- A one-dataset score payload. -/
def sc4 : Score := [{ dataset := "ds", metrics := [{ name := "m", value := .num 1 }] }]

/-- State for the `postSubmission` scenarios: participant and admin users,
the active phase and both folders, and no scoring user configured. -/
def stC6 : St :=
  { stEmpty with
    users := [uPart, uAdmin]
    phases := [phW]
    folders := [fSub, fGT] }

/-- Parameters of a plain submission request. -/
def pC6 : PostSubmissionParams :=
  { title := some "T", date := none, userId := none, meta := none }

/-- The submission document `createSubmission` builds in state `stC6`. -/
def subC6 : SubDoc :=
  { id := 100, creatorId := 2, creatorName := "Pat Person", phaseId := 20,
    folderId := 30, created := some "2020-01-01T00:00:00", score := none,
    overallScore := none, latest := false,
    -- the title is stored stripped; kept in symbolic form `"T".trim`
    title := some ("T".trim), approach := none,
    jobId := none, organization := none, organizationUrl := none,
    documentationUrl := none, meta := [] }

/-- The submission folder after `updateFolderAccess` grants phase admin 1
READ access. -/
def fSubAfter : Folder :=
  { fSub with acl := [{ id := 2, level := 2 }, { id := 1, level := 0 }] }

/-- The state after `createSubmission` succeeds in `stC6`. -/
def st1C6 : St :=
  { stC6 with
    nextSubmissionId := 101
    submissions := [subC6]
    folders := [fSubAfter, fGT] }

/-- The job `scoreSubmission` creates before noticing the missing setting. -/
def jobC6 : Job :=
  { id := 200, title := "PhaseOne submission: SubFolder", type := "covalic_score",
    handler := "worker_handler", userId := some 2, rescoring := false,
    covalicSubmissionId := none, scheduled := false }

/-- The state `scoreSubmission` leaves behind when it raises for the missing
scoring-user setting. -/
def st2C6 : St :=
  { st1C6 with jobs := [jobC6], nextJobId := 201 }

/-- The `GirderException` for the unset scoring user id. -/
def eC6 : Err :=
  .girder "No scoring user ID is set. Please set one on the plugin configuration page."

/-- State for the `scoreSubmission` success scenario: scoring user 3 is
configured and exists. -/
def stC5 : St :=
  { stEmpty with
    users := [uPart, uScore]
    phases := [phW]
    folders := [fSub, fGT]
    submissions := [subC6]
    settings := some 3 }

/-- An inactive copy of the phase. -/
def phInactive : Phase := { phW with active := false }

/-- A previously scored submission about to be re-scored through `postScore`. -/
def sub4 : SubDoc :=
  { id := 101, creatorId := 2, creatorName := "Pat Person", phaseId := 20,
    folderId := 30, created := none, score := none, overallScore := some 7,
    latest := true, title := some "T", approach := none, jobId := none,
    organization := none, organizationUrl := none, documentationUrl := none,
    meta := [] }

/-- State for the `postScore` scenario. -/
def stC4 : St :=
  { stEmpty with
    users := [uPart, uAdmin]
    phases := [phW]
    folders := [fSub, fGT]
    submissions := [sub4]
    tokens := [500] }

/-- A never-scored document that already carries an `overallScore`, so the
score branch of `validate` is skipped on save. -/
def docC1 : SubDoc :=
  { id := 1, creatorId := 1, creatorName := "Pat Person", phaseId := 2,
    folderId := 3, created := none, score := some sc4, overallScore := some 7,
    latest := false, title := none, approach := none, jobId := none,
    organization := none, organizationUrl := none, documentationUrl := none,
    meta := [] }

/-- A stored submission of the (phase 2, creator 1, no approach) group with
the group's best overall score, currently flagged `latest`. -/
def subA : SubDoc :=
  { id := 1, creatorId := 1, creatorName := "Pat Person", phaseId := 2,
    folderId := 3, created := none, score := some sc4, overallScore := some 9,
    latest := true, title := none, approach := none, jobId := none,
    organization := none, organizationUrl := none, documentationUrl := none,
    meta := [] }

/-- A new, lower-scoring submission of the same group, about to be saved. -/
def docC2 : SubDoc :=
  { id := 2, creatorId := 1, creatorName := "Pat Person", phaseId := 2,
    folderId := 3, created := none, score := some sc4, overallScore := none,
    latest := false, title := none, approach := none, jobId := none,
    organization := none, organizationUrl := none, documentationUrl := none,
    meta := [] }

/-- State holding only `subA`. -/
def stC2 : St := { stEmpty with submissions := [subA] }

/-- `docC2` as saved: overall score 5 (under `envId`), flagged `latest`. -/
def docC2sav : SubDoc := { docC2 with overallScore := some 5, latest := true }

/-- The state after saving `docC2` into `stC2`: `subA` loses its `latest`
flag although its overall score 9 beats 5. -/
def stC2sav : St :=
  { stC2 with submissions := [{ subA with latest := false }, docC2sav] }

/-- Phase for the `onPhaseSave` scenario: its admin is user 2 and user 3
holds a stray READ entry. -/
def ph3 : Phase :=
  { id := 21, name := "P3", active := true, participantGroupId := 10,
    groundTruthFolderId := 31,
    userAcl := [{ id := 2, level := 2 }, { id := 3, level := 0 }], groupAcl := [] }

/-- A submission folder of that phase, created by user 1, with a stale ACL
entry for non-admin user 3. -/
def f3 : Folder :=
  { id := 40, name := "F3", creatorId := 1,
    acl := [{ id := 3, level := 0 }, { id := 1, level := 2 }], groupAcl := [] }

/-- A submission of phase 21 stored in folder 40. -/
def sub3 : SubDoc :=
  { id := 110, creatorId := 1, creatorName := "Ada Admin", phaseId := 21,
    folderId := 40, created := none, score := none, overallScore := none,
    latest := false, title := none, approach := none, jobId := none,
    organization := none, organizationUrl := none, documentationUrl := none,
    meta := [] }

/-- Folder 40 after `onPhaseSave`: the stray entry for user 3 is gone, the
creator's entry is untouched, and phase admin 2 has READ. -/
def f3After : Folder :=
  { f3 with acl := [{ id := 1, level := 2 }, { id := 2, level := 0 }] }

/-- A document whose `approach` is the string `'default'`. -/
def doc9 : SubDoc := { docC1 with approach := some "default" }

/-- `doc9` as `validate` returns it: the `approach` field deleted. -/
def doc9sav : SubDoc := { doc9 with approach := none }

/-- `subA` after the save of `docC2` cleared its `latest` flag. -/
def subAcleared : SubDoc := { subA with latest := false }

/-! # Theorems -/

/-! ## Helper lemmas about `validate` and the model save -/

theorem validateCreated_ok_shape (env : Env) (doc d : SubDoc)
    (h : validateCreated env doc = Except.ok d) :
    ∃ c, d = { doc with created := c } := by
  unfold validateCreated at h
  split at h
  · cases h
    exact ⟨doc.created, rfl⟩
  · split at h
    · cases h
      exact ⟨doc.created, rfl⟩
    · split at h
      · cases h
        exact ⟨_, rfl⟩
      · cases h

@[simp] theorem dropDefaultApproach_id (doc : SubDoc) :
    (dropDefaultApproach doc).id = doc.id := by
  unfold dropDefaultApproach; split <;> rfl

@[simp] theorem dropDefaultApproach_creatorId (doc : SubDoc) :
    (dropDefaultApproach doc).creatorId = doc.creatorId := by
  unfold dropDefaultApproach; split <;> rfl

@[simp] theorem dropDefaultApproach_phaseId (doc : SubDoc) :
    (dropDefaultApproach doc).phaseId = doc.phaseId := by
  unfold dropDefaultApproach; split <;> rfl

@[simp] theorem dropDefaultApproach_score (doc : SubDoc) :
    (dropDefaultApproach doc).score = doc.score := by
  unfold dropDefaultApproach; split <;> rfl

@[simp] theorem dropDefaultApproach_overallScore (doc : SubDoc) :
    (dropDefaultApproach doc).overallScore = doc.overallScore := by
  unfold dropDefaultApproach; split <;> rfl

@[simp] theorem dropDefaultApproach_latest (doc : SubDoc) :
    (dropDefaultApproach doc).latest = doc.latest := by
  unfold dropDefaultApproach; split <;> rfl

theorem dropDefaultApproach_shape (doc : SubDoc) :
    dropDefaultApproach doc = doc ∨
      dropDefaultApproach doc = { doc with approach := none } := by
  unfold dropDefaultApproach
  split
  · exact Or.inr rfl
  · exact Or.inl rfl

theorem dropDefaultApproach_ne (doc : SubDoc) :
    (dropDefaultApproach doc).approach ≠ some "default" ∧
      (dropDefaultApproach doc).approach ≠ some "" := by
  unfold dropDefaultApproach
  split
  case isTrue h => simp
  case isFalse h =>
    simp only [Bool.or_eq_true, beq_iff_eq, not_or] at h
    exact h

theorem validateScore_scored (env : Env) (st : St) (doc : SubDoc) (sc : Score)
    (hsc : doc.score = some sc) (hov : doc.overallScore = none) :
    validateScore env st doc =
      Except.ok (scoredDoc env st doc sc,
        { st with submissions := st.submissions.map (fun s =>
            if clearLatestQuery (scoredDoc env st doc sc) s then
              { s with latest := false } else s) }) := by
  unfold validateScore scoredDoc
  rw [hsc, hov]

theorem validateScore_ok_approach (env : Env) (st : St) (doc doc' : SubDoc) (st' : St)
    (h : validateScore env st doc = Except.ok (doc', st')) :
    doc'.approach = doc.approach := by
  unfold validateScore at h
  cases hsc : doc.score with
  | none =>
    rw [hsc] at h
    cases h
    rfl
  | some sc =>
    rw [hsc] at h
    cases hov : doc.overallScore with
    | none => rw [hov] at h; cases h; rfl
    | some v => rw [hov] at h; cases h; rfl

theorem clearLatest_query_false (doc : SubDoc) (subs : List SubDoc) :
    ∀ s ∈ subs.map (fun t =>
        if clearLatestQuery doc t then { t with latest := false } else t),
      clearLatestQuery doc s = false := by
  intro s hs
  rcases List.mem_map.1 hs with ⟨t, _, rfl⟩
  by_cases h : clearLatestQuery doc t = true
  · rw [if_pos h]
    simp [clearLatestQuery]
  · rw [if_neg h]
    simpa using h

theorem clearLatest_map_ids (doc : SubDoc) (subs : List SubDoc) :
    (subs.map (fun t =>
      if clearLatestQuery doc t then { t with latest := false } else t)).map
        (fun s => s.id) = subs.map (fun s => s.id) := by
  rw [List.map_map]
  apply List.map_congr_left
  intro t _
  by_cases h : clearLatestQuery doc t
  · simp [h]
  · simp [h]

theorem scoredDoc_latest (env : Env) (st : St) (doc : SubDoc) (sc : Score) :
    (scoredDoc env st doc sc).latest = true := rfl

theorem clearLatestQuery_self (doc : SubDoc) (h : doc.latest = true) :
    clearLatestQuery doc doc = true := by
  simp [clearLatestQuery, h]

theorem countP_replace_eq_one (p : SubDoc → Bool) (doc : SubDoc) :
    ∀ subs : List SubDoc,
      (subs.map (fun s => s.id)).Nodup → (∀ s ∈ subs, p s = false) → p doc = true →
      subs.any (fun t => t.id == doc.id) = true →
      (subs.map (fun s => if s.id == doc.id then doc else s)).countP p = 1 := by
  intro subs
  induction subs with
  | nil => intro _ _ _ hany; simp at hany
  | cons s rest ih =>
    intro hnd h0 hd hany
    rcases List.nodup_cons.1 hnd with ⟨hnotin, hndr⟩
    by_cases hid : (s.id == doc.id) = true
    · have hrest : (rest.map (fun t => if t.id == doc.id then doc else t)).countP p = 0 := by
        apply List.countP_eq_zero.2
        intro a ha
        rcases List.mem_map.1 ha with ⟨t, ht, rfl⟩
        have hne : ¬ ((t.id == doc.id) = true) := by
          intro hcon
          apply hnotin
          have hmem : t.id ∈ rest.map (fun s => s.id) := List.mem_map.2 ⟨t, ht, rfl⟩
          rwa [beq_iff_eq.1 hcon, ← beq_iff_eq.1 hid] at hmem
        rw [if_neg hne]
        simp [h0 t (List.mem_cons_of_mem _ ht)]
      simp only [List.map_cons, List.countP_cons]
      rw [hrest, if_pos hid, hd]
      simp
    · have hany' : rest.any (fun t => t.id == doc.id) = true := by
        rcases List.any_eq_true.1 hany with ⟨t, ht, htid⟩
        rcases List.mem_cons.1 ht with h | h
        · subst h; exact absurd htid hid
        · exact List.any_eq_true.2 ⟨t, h, htid⟩
      have ihres := ih hndr (fun t ht => h0 t (List.mem_cons_of_mem _ ht)) hd hany'
      simp only [List.map_cons, List.countP_cons]
      rw [if_neg hid, ihres, h0 s (List.mem_cons_self _ _)]
      simp

theorem upsert_countP_one (p : SubDoc → Bool) (subs : List SubDoc) (doc : SubDoc)
    (hnd : (subs.map (fun s => s.id)).Nodup)
    (h0 : ∀ s ∈ subs, p s = false) (hd : p doc = true) :
    (upsert subs doc).countP p = 1 := by
  unfold upsert
  split
  case isTrue hany => exact countP_replace_eq_one p doc subs hnd h0 hd hany
  case isFalse hany =>
    have h0' : subs.countP p = 0 :=
      List.countP_eq_zero.2 (fun a ha => by simp [h0 a ha])
    simp [List.countP_append, h0', List.countP_cons, hd]

theorem mem_upsert_self (subs : List SubDoc) (doc : SubDoc) : doc ∈ upsert subs doc := by
  unfold upsert
  split
  case isTrue h =>
    rcases List.any_eq_true.1 h with ⟨s, hs, hid⟩
    exact List.mem_map.2 ⟨s, hs, by simp [hid]⟩
  case isFalse h =>
    exact List.mem_append_right _ (List.mem_singleton_self _)

theorem mem_upsert_elim (subs : List SubDoc) (doc s : SubDoc)
    (h : s ∈ upsert subs doc) : s = doc ∨ s ∈ subs := by
  unfold upsert at h
  split at h
  · rcases List.mem_map.1 h with ⟨t, ht, rfl⟩
    by_cases hid : (t.id == doc.id) = true
    · simp [hid]
    · simp [hid]
      exact Or.inr ht
  · rcases List.mem_append.1 h with h1 | h2
    · exact Or.inr h1
    · exact Or.inl (List.mem_singleton.1 h2)

/-- A save of a score-carrying, not-yet-aggregated document reduces to the
score branch of `validate` followed by the upsert. -/
theorem saveSub_scored_shape (env : Env) (st : St) (doc doc' : SubDoc) (st' : St)
    (hsc : doc.score.isSome = true) (hov : doc.overallScore = none)
    (hsave : saveSub env st doc = Except.ok (doc', st')) :
    ∃ dd sc, dd.score = some sc ∧
      doc' = scoredDoc env st dd sc ∧ doc'.latest = true ∧
      st'.submissions = upsert
        (st.submissions.map (fun s =>
          if clearLatestQuery doc' s then { s with latest := false } else s)) doc' := by
  unfold saveSub at hsave
  split at hsave
  · cases hsave
  next doc1 st1 heq =>
    unfold validateSub at heq
    split at heq
    · cases heq
    next doc0 hvc =>
      rcases validateCreated_ok_shape env doc doc0 hvc with ⟨c, rfl⟩
      rcases Option.isSome_iff_exists.1 hsc with ⟨sc, hsc'⟩
      rw [validateScore_scored env st _ sc (by simp [hsc']) (by simp [hov])] at heq
      simp only [Except.ok.injEq, Prod.mk.injEq] at heq
      obtain ⟨rfl, rfl⟩ := heq
      simp only [Except.ok.injEq, Prod.mk.injEq] at hsave
      obtain ⟨rfl, rfl⟩ := hsave
      exact ⟨_, sc, by simp [hsc'], rfl, rfl, rfl⟩

/-! ## C9: `validate` deletes a `'default'` or empty `approach` -/

/-- C9: every submission document that passes `Submission.validate` has no
`approach` field equal to `'default'` or the empty string — `validate`
deletes the field in those cases. -/
theorem validated_approach_not_default (env : Env) (st : St) (doc doc' : SubDoc)
    (st' : St) (h : validateSub env st doc = Except.ok (doc', st')) :
    doc'.approach ≠ some "default" ∧ doc'.approach ≠ some "" := by
  unfold validateSub at h
  cases hvc : validateCreated env doc with
  | error e => rw [hvc] at h; cases h
  | ok doc0 =>
    rw [hvc] at h
    have happ := validateScore_ok_approach env st _ doc' st' h
    rw [happ]
    exact dropDefaultApproach_ne doc0

/-- Witness for C9: validating a document whose `approach` is `'default'`
produces a document without the field. -/
theorem validated_approach_not_default_witness :
    doc9sav.approach ≠ some "default" ∧ doc9sav.approach ≠ some "" :=
  validated_approach_not_default envId stEmpty doc9 doc9sav stEmpty (by decide)

/-! ## C1: uniqueness of `latest` per phase/creator/approach group -/

/-- C1 counterexample: the claim mentions "any save of a submission document
that has a score", but `validate` only maintains the invariant when the
document additionally has no `overallScore` yet.  Saving `docC1` (which has a
score and an overall score) into an empty store leaves zero `latest`
submissions in its group, not one. -/
theorem latest_unique_counterexample :
    docC1.score.isSome = true ∧
    saveSub envId stEmpty docC1 =
      Except.ok (docC1, { stEmpty with submissions := [docC1] }) ∧
    ({ stEmpty with submissions := [docC1] } : St).submissions.countP
      (clearLatestQuery docC1) = 0 := by decide

/-- C1 (amended): after any save of a submission document that has a score
and no overall score yet, exactly one submission of the saved document's
phase/creator/approach group is flagged `latest` (the saved document;
`validate` clears the flag on the rest of the group). -/
theorem latest_unique_after_scored_save (env : Env) (st : St) (doc doc' : SubDoc)
    (st' : St) (hnd : (st.submissions.map (fun s => s.id)).Nodup)
    (hsc : doc.score.isSome = true) (hov : doc.overallScore = none)
    (hsave : saveSub env st doc = Except.ok (doc', st')) :
    st'.submissions.countP (clearLatestQuery doc') = 1 := by
  rcases saveSub_scored_shape env st doc doc' st' hsc hov hsave with
    ⟨dd, sc, hdd, hdoc', hlatest, hsubs⟩
  rw [hsubs]
  apply upsert_countP_one
  · rw [clearLatest_map_ids]
    exact hnd
  · exact clearLatest_query_false doc' st.submissions
  · exact clearLatestQuery_self doc' hlatest

/-- Witness for C1: saving the freshly scored `docC2` over the store holding
`subA` leaves exactly one `latest` submission in the group. -/
theorem latest_unique_after_scored_save_witness :
    stC2sav.submissions.countP (clearLatestQuery docC2sav) = 1 :=
  latest_unique_after_scored_save envId stC2 docC2 docC2sav stC2sav
    (by decide) (by decide) (by decide) (by decide)

/-! ## C2: what the `latest` flag marks -/

/-- C2 counterexample: the saved submission `docC2` gets `latest` although
its overall score 5 ranks below group-mate `subA`'s 9, whose flag is
cleared — `latest` does not mark the best submission of the group. -/
theorem latest_not_best_counterexample :
    saveSub envId stC2 docC2 = Except.ok (docC2sav, stC2sav) ∧
    docC2sav.latest = true ∧ docC2sav.overallScore = some 5 ∧
    subAcleared ∈ stC2sav.submissions ∧
    subAcleared.latest = false ∧ subAcleared.overallScore = some 9 ∧
    subAcleared.phaseId = docC2sav.phaseId ∧
    subAcleared.creatorId = docC2sav.creatorId ∧
    subAcleared.approach = docC2sav.approach ∧
    ((5 : Int) < 9) := by decide

/-- C2 (amended): within its phase/creator/approach group, the `latest` flag
marks the most recently saved scored submission — the document of the last
save whose score branch ran — not necessarily the submission ranking first by
`overallScore`. -/
theorem latest_marks_most_recent_scored_save (env : Env) (st : St)
    (doc doc' : SubDoc) (st' : St)
    (hsc : doc.score.isSome = true) (hov : doc.overallScore = none)
    (hsave : saveSub env st doc = Except.ok (doc', st')) :
    doc' ∈ st'.submissions ∧ doc'.latest = true ∧
      ∀ s ∈ st'.submissions, clearLatestQuery doc' s = true → s = doc' := by
  rcases saveSub_scored_shape env st doc doc' st' hsc hov hsave with
    ⟨dd, sc, hdd, hdoc', hlatest, hsubs⟩
  refine ⟨?_, hlatest, ?_⟩
  · rw [hsubs]
    exact mem_upsert_self _ _
  · intro s hs hq
    rw [hsubs] at hs
    rcases mem_upsert_elim _ _ _ hs with rfl | hmem
    · rfl
    · have hf := clearLatest_query_false doc' st.submissions s hmem
      rw [hq] at hf
      simp at hf

/-- Witness for C2: the saved `docC2` is stored and is the group's unique
`latest` submission. -/
theorem latest_marks_most_recent_scored_save_witness :
    docC2sav ∈ stC2sav.submissions ∧ docC2sav.latest = true :=
  ⟨(latest_marks_most_recent_scored_save envId stC2 docC2 docC2sav stC2sav
      (by decide) (by decide) (by decide)).1,
   (latest_marks_most_recent_scored_save envId stC2 docC2 docC2sav stC2sav
      (by decide) (by decide) (by decide)).2.1⟩

/-! ## C7: the registered REST routes -/

/-- C7: the plugin's three resources register exactly the four routes the
spec names — `POST challenge` (`createChallenge`), `POST challenge_phase`
(`createPhase`), `POST covalic_submission` (`postSubmission`) and
`POST covalic_submission/:id/score` (`postScore`) — and no others. -/
theorem covalic_routes_exact :
    covalicRoutes =
      [{ method := "POST", resourceName := "challenge", path := [],
         handler := "createChallenge" },
       { method := "POST", resourceName := "challenge_phase", path := [],
         handler := "createPhase" },
       { method := "POST", resourceName := "covalic_submission", path := [],
         handler := "postSubmission" },
       { method := "POST", resourceName := "covalic_submission", path := [":id", "score"],
         handler := "postScore" }] := rfl

/-! ## C10: validation of the scoring-user-id setting -/

/-- C10: setting the plugin's `SCORING_USER_ID` to an empty value (absent or
the empty string) is rejected with `ValidationException('Scoring user ID
must not be empty.')`, and a non-empty value is accepted only when it names
an existing user. -/
theorem scoring_user_setting_validation (userIds : List String) (key : String)
    (h : key = SCORING_USER_ID) :
    validateSettings userIds key none =
        .rejected "Scoring user ID must not be empty." ∧
    validateSettings userIds key (some "") =
        .rejected "Scoring user ID must not be empty." ∧
    ∀ v, validateSettings userIds key (some v) = .handled → v ∈ userIds := by
  subst h
  refine ⟨rfl, rfl, ?_⟩
  intro v hv
  have hv2 : (if v = "" then SettingOutcome.rejected "Scoring user ID must not be empty."
      else if userIds.contains v then SettingOutcome.handled
      else SettingOutcome.rejected ("No such user: " ++ v ++ ".")) =
        SettingOutcome.handled := hv
  by_cases hve : v = ""
  · rw [if_pos hve] at hv2
    cases hv2
  · rw [if_neg hve] at hv2
    by_cases hin : userIds.contains v = true
    · simpa using hin
    · rw [if_neg hin] at hv2
      cases hv2

/-- Witness for C10: the empty value is rejected with the exact message, and
an accepted value names an existing user. -/
theorem scoring_user_setting_validation_witness :
    validateSettings ["7"] SCORING_USER_ID none =
        .rejected "Scoring user ID must not be empty." ∧
    validateSettings ["7"] SCORING_USER_ID (some "7") = .handled :=
  ⟨(scoring_user_setting_validation ["7"] SCORING_USER_ID rfl).1, by decide⟩

/-! ## C8: inactive phases reject submissions -/

/-- C8: when the target phase is inactive and the caller is absent or not a
site admin, `postSubmission` raises `ValidationException` immediately,
leaving the whole state — in particular the stored submissions — unchanged. -/
theorem inactive_phase_blocks_submission (env : Env) (st : St)
    (curUser : Option User) (phase : Phase) (folder : Folder)
    (params : PostSubmissionParams) (apiUrl : String)
    (hinactive : phase.active = false)
    (huser : curUser = none ∨ ∃ u, curUser = some u ∧ u.admin = false) :
    postSubmission env st curUser phase folder params apiUrl =
      (.error (.validation
        "You may not submit to this phase because it is not currently active."), st) := by
  have hblock : inactiveBlocked phase curUser = true := by
    unfold inactiveBlocked
    rcases huser with rfl | ⟨u, rfl, hu⟩
    · simp [hinactive]
    · simp [hinactive, hu]
  unfold postSubmission
  rw [if_pos hblock]

/-- Witness for C8: an anonymous request against the inactive phase is
rejected and the state is untouched. -/
theorem inactive_phase_blocks_submission_witness :
    postSubmission envId stC6 none phInactive fSub pC6 "api" =
      (.error (.validation
        "You may not submit to this phase because it is not currently active."), stC6) :=
  inactive_phase_blocks_submission envId stC6 none phInactive fSub pC6 "api"
    (by decide) (Or.inl rfl)

/-! ## C5: `scoreSubmission` error handling and success -/

@[simp] theorem setUserAccess_id (f : Folder) (uid : Nat) (lv : Option Nat) :
    (setUserAccess f uid lv).id = f.id := by
  unfold setUserAccess; cases lv <;> rfl

@[simp] theorem setUserAccess_creatorId (f : Folder) (uid : Nat) (lv : Option Nat) :
    (setUserAccess f uid lv).creatorId = f.creatorId := by
  unfold setUserAccess; cases lv <;> rfl

theorem find?_isSome_map_pres (l : List Folder) (f : Folder → Folder) (key : Nat)
    (hid : ∀ g, (f g).id = g.id) :
    ((l.map f).find? (fun g => g.id == key)).isSome =
      (l.find? (fun g => g.id == key)).isSome := by
  induction l with
  | nil => rfl
  | cons a rest ih =>
    simp only [List.map_cons, List.find?]
    rw [hid a]
    cases hb : (a.id == key) with
    | true =>
      simp only [hb]
      rfl
    | false =>
      simp only [hb]
      exact ih

/-- C5: `scoreSubmission` raises `GirderException` when the scoring-user-id
setting is unset, raises `GirderException` when the configured scoring user
does not load, and otherwise creates and schedules a worker job and returns
the submission saved with `jobId` equal to the new job's id. -/
theorem scoreSubmission_spec (st : St) (sub : SubDoc) (apiUrl : String)
    (phase : Phase) (folder : Folder)
    (hph : st.phases.find? (fun p => p.id == sub.phaseId) = some phase)
    (hfo : st.folders.find? (fun f => f.id == sub.folderId) = some folder) :
    (st.settings = none →
      (scoreSubmission st sub apiUrl).1 = .error (.girder
        "No scoring user ID is set. Please set one on the plugin configuration page.")) ∧
    (∀ uid, st.settings = some uid →
      st.users.find? (fun u => u.id == uid) = none →
      (scoreSubmission st sub apiUrl).1 = .error (.girder
        ("Invalid scoring user setting (" ++ toString uid ++ ")."))) ∧
    (∀ uid su, st.settings = some uid →
      st.users.find? (fun u => u.id == uid) = some su →
      (st.folders.find? (fun f => f.id == phase.groundTruthFolderId)).isSome = true →
      (scoreSubmission st sub apiUrl).1 = .ok { sub with jobId := some st.nextJobId } ∧
      { sub with jobId := some st.nextJobId } ∈ (scoreSubmission st sub apiUrl).2.submissions ∧
      (scoreSubmission st sub apiUrl).2.jobs.any
        (fun j => j.id == st.nextJobId && j.scheduled) = true) := by
  refine ⟨?_, ?_, ?_⟩
  · intro hset
    simp only [scoreSubmission, hph, hfo, hset]
  · intro uid hset hfind
    simp only [scoreSubmission, hph, hfo, hset, hfind]
  · intro uid su hset hfind hgt
    have hgt2 : ((st.folders.map (fun (g : Folder) =>
        if g.id == folder.id then setUserAccess g su.id (some READ) else g)).find?
          (fun f => f.id == phase.groundTruthFolderId)).isSome = true := by
      rw [find?_isSome_map_pres]
      · exact hgt
      · intro g
        by_cases h : (g.id == folder.id) = true
        · simp [h]
        · simp [h]
    rcases Option.isSome_iff_exists.1 hgt2 with ⟨gt', hgt'⟩
    simp only [scoreSubmission, hph, hfo, hset, hfind, hgt']
    by_cases h1 : hasAccessPhase phase su ADMIN = true <;>
      by_cases h2 : hasAccessFolder gt' su READ = true <;>
        simp [h1, h2, mem_upsert_self, List.any_append]

/-- Witness for C5: with scoring user 3 configured, scoring `subC6` in `stC5`
schedules job 200 and saves the submission with that job id. -/
theorem scoreSubmission_spec_witness :
    (scoreSubmission stC5 subC6 "api").1 =
        .ok { subC6 with jobId := some stC5.nextJobId } ∧
    { subC6 with jobId := some stC5.nextJobId } ∈
        (scoreSubmission stC5 subC6 "api").2.submissions ∧
    (scoreSubmission stC5 subC6 "api").2.jobs.any
        (fun j => j.id == stC5.nextJobId && j.scheduled) = true :=
  (scoreSubmission_spec stC5 subC6 "api" phW fSub (by decide) (by decide)).2.2
    3 uScore (by decide) (by decide) (by decide)

/-! ## C4: `postScore` saves the score and returns the saved submission -/

theorem reprDoc_length_pos (s : SubDoc) : 0 < (reprDoc s).length := by
  unfold reprDoc
  have h1 : ("\x7b" : String).length = 1 := rfl
  have h2 : ("\x7d" : String).length = 1 := rfl
  rw [String.length_append, String.length_append, h1, h2]
  omega

@[simp] theorem postScoredDoc_folderId (env : Env) (st : St) (sub : SubDoc) (sc : Score) :
    (postScoredDoc env st sub sc).folderId = sub.folderId := rfl

@[simp] theorem postScoredDoc_creatorId (env : Env) (st : St) (sub : SubDoc) (sc : Score) :
    (postScoredDoc env st sub sc).creatorId = sub.creatorId := rfl

/-- C4: a `postScore` call by a caller with ADMIN access on the submission's
phase saves the submission with the posted score payload (as updated in place
by `computeAverageScores`), an `overallScore` recomputed by
`computeAverageScores` then `computeOverallScore`, and `latest` set, and
returns that saved submission document. -/
theorem postScore_spec (env : Env) (st : St) (curUser : Option User)
    (submission : SubDoc) (score : Score) (tok : Nat) (phase : Phase)
    (cu0 creator : User) (parentF : Folder)
    (hph : st.phases.find? (fun p => p.id == submission.phaseId) = some phase)
    (hcu : curUser = some cu0)
    (hacc : hasAccessPhase phase cu0 ADMIN = true)
    (hcreated : submission.created = none)
    (happ : (submission.approach == some "default" ||
      submission.approach == some "") = false)
    (huser : st.users.find? (fun u => u.id == submission.creatorId) = some creator)
    (hfold : st.folders.find? (fun f => f.id == submission.folderId) = some parentF)
    (hfacc : hasAccessFolder parentF creator ADMIN = true) :
    (postScore env st curUser submission score (some tok)).1 =
        .ok (.sub (postScoredDoc env st submission score)) ∧
    postScoredDoc env st submission score ∈
        (postScore env st curUser submission score (some tok)).2.submissions ∧
    (postScoredDoc env st submission score).latest = true ∧
    (postScoredDoc env st submission score).score =
        some (env.computeAverageScores score) ∧
    (postScoredDoc env st submission score).overallScore =
        some (env.computeOverallScore
          { submission with
            overallScore := none
            score := some (env.computeAverageScores score) }
          (st.phases.find? (fun p => p.id == submission.phaseId))) := by
  subst hcu
  have hvc : validateCreated env
      { submission with overallScore := none, score := some score } =
      Except.ok { submission with overallScore := none, score := some score } := by
    unfold validateCreated
    simp [hcreated]
  have hdd : dropDefaultApproach
      { submission with overallScore := none, score := some score } =
      { submission with overallScore := none, score := some score } := by
    unfold dropDefaultApproach
    rw [if_neg]
    simp [happ]
  have hval : validateSub env st
      { submission with overallScore := none, score := some score } =
      Except.ok (postScoredDoc env st submission score,
        { st with submissions := st.submissions.map (fun s =>
            if clearLatestQuery (postScoredDoc env st submission score) s then
              { s with latest := false } else s) }) := by
    simp only [validateSub, hvc]
    rw [hdd]
    exact validateScore_scored env st _ score rfl rfl
  have hsave : saveSub env st
      { submission with overallScore := none, score := some score } =
      Except.ok (postScoredDoc env st submission score,
        { st with submissions := (upsert
            (st.submissions.map (fun s =>
              if clearLatestQuery (postScoredDoc env st submission score) s then
                { s with latest := false } else s))
            (postScoredDoc env st submission score)) }) := by
    simp only [saveSub, hval]
  have hlen := reprDoc_length_pos (postScoredDoc env st submission score)
  refine ⟨?_, ?_, rfl, rfl, rfl⟩
  · simp [postScore, hph, hacc, hsave, huser, hfold, hfacc, hlen]
  · simp [postScore, hph, hacc, hsave, huser, hfold, hfacc, hlen, mem_upsert_self]

/-- Witness for C4: re-scoring `sub4` through `postScore` as the site admin
returns the saved document with the new score, overall score 5 and `latest`
set. -/
theorem postScore_spec_witness :
    (postScore envId stC4 (some uAdmin) sub4 sc4 (some 500)).1 =
        .ok (.sub (postScoredDoc envId stC4 sub4 sc4)) ∧
    postScoredDoc envId stC4 sub4 sc4 ∈
        (postScore envId stC4 (some uAdmin) sub4 sc4 (some 500)).2.submissions ∧
    (postScoredDoc envId stC4 sub4 sc4).latest = true ∧
    (postScoredDoc envId stC4 sub4 sc4).score =
        some (envId.computeAverageScores sc4) ∧
    (postScoredDoc envId stC4 sub4 sc4).overallScore =
        some (envId.computeOverallScore
          { sub4 with
            overallScore := none
            score := some (envId.computeAverageScores sc4) }
          (stC4.phases.find? (fun p => p.id == sub4.phaseId))) :=
  postScore_spec envId stC4 (some uAdmin) sub4 sc4 500 phW uAdmin uPart fSub
    (by decide) rfl (by decide) (by decide) (by decide) (by decide) (by decide)
    (by decide)

/-! ## C3: folder ACLs mirror the phase admin set after a phase save -/

theorem foldl_setUserAccess_id (lv : Option Nat) (U : List Nat) : ∀ f : Folder,
    (U.foldl (fun g uid => setUserAccess g uid lv) f).id = f.id := by
  induction U with
  | nil => intro f; rfl
  | cons u us ih =>
    intro f
    simp only [List.foldl_cons]
    rw [ih (setUserAccess f u lv), setUserAccess_id]

theorem foldl_setUserAccess_creatorId (lv : Option Nat) (U : List Nat) : ∀ f : Folder,
    (U.foldl (fun g uid => setUserAccess g uid lv) f).creatorId = f.creatorId := by
  induction U with
  | nil => intro f; rfl
  | cons u us ih =>
    intro f
    simp only [List.foldl_cons]
    rw [ih (setUserAccess f u lv), setUserAccess_creatorId]

theorem removeFold_acl (U : List Nat) : ∀ f : Folder,
    (U.foldl (fun g uid => setUserAccess g uid none) f).acl =
      f.acl.filter (fun e => !(U.contains e.id)) := by
  induction U with
  | nil =>
    intro f
    simp
  | cons u us ih =>
    intro f
    simp only [List.foldl_cons]
    rw [ih (setUserAccess f u none)]
    have hstep : (setUserAccess f u none).acl = f.acl.filter (fun e => e.id != u) := rfl
    rw [hstep, List.filter_filter]
    apply List.filter_congr
    intro e _
    simp only [List.contains_cons, Bool.not_or, bne]
    rw [Bool.and_comm]

theorem addFold_acl_mem (V : List Nat) : ∀ (f : Folder),
    ∀ e ∈ (V.foldl (fun g uid => setUserAccess g uid (some READ)) f).acl,
      e ∈ f.acl ∨ (e.level = READ ∧ e.id ∈ V) := by
  induction V with
  | nil => intro f e he; exact Or.inl he
  | cons v vs ih =>
    intro f e he
    simp only [List.foldl_cons] at he
    rcases ih (setUserAccess f v (some READ)) e he with hmem | ⟨hlv, hin⟩
    · have : (setUserAccess f v (some READ)).acl =
          f.acl.filter (fun x => x.id != v) ++ [{ id := v, level := READ }] := rfl
      rw [this] at hmem
      rcases List.mem_append.1 hmem with h1 | h2
      · exact Or.inl (List.mem_of_mem_filter h1)
      · rcases List.mem_singleton.1 h2 with rfl
        exact Or.inr ⟨rfl, List.mem_cons_self _ _⟩
    · exact Or.inr ⟨hlv, List.mem_cons_of_mem _ hin⟩

theorem addFold_filter_preserved (uid : Nat) (V : List Nat) (hV : uid ∉ V) :
    ∀ f : Folder,
      (V.foldl (fun g u => setUserAccess g u (some READ)) f).acl.filter
          (fun e => e.id == uid) =
        f.acl.filter (fun e => e.id == uid) := by
  induction V with
  | nil => intro f; rfl
  | cons v vs ih =>
    intro f
    have hne : uid ≠ v := fun h => hV (h ▸ List.mem_cons_self _ _)
    have hvs : uid ∉ vs := fun h => hV (List.mem_cons_of_mem _ h)
    simp only [List.foldl_cons]
    rw [ih hvs (setUserAccess f v (some READ))]
    have hstep : (setUserAccess f v (some READ)).acl =
        f.acl.filter (fun x => x.id != v) ++ [{ id := v, level := READ }] := rfl
    rw [hstep, List.filter_append, List.filter_filter]
    have h2 : List.filter (fun e : AccessEntry => e.id == uid)
        [{ id := v, level := READ }] = [] := by
      simp [Ne.symm hne]
    rw [h2, List.append_nil]
    apply List.filter_congr
    intro e _
    by_cases he : (e.id == uid) = true
    · have hnev : (e.id != v) = true := by
        have heq := beq_iff_eq.1 he
        simp [bne, heq]
        exact hne
      simp [he, hnev]
    · simp [he]

theorem addFold_filter_eq (uid : Nat) (V : List Nat) :
    ∀ f : Folder, V.Nodup → uid ∈ V →
      (V.foldl (fun g u => setUserAccess g u (some READ)) f).acl.filter
          (fun e => e.id == uid) =
        [{ id := uid, level := READ }] := by
  induction V with
  | nil => intro f _ h; cases h
  | cons v vs ih =>
    intro f hnd hmem
    rcases List.nodup_cons.1 hnd with ⟨hnotin, hndvs⟩
    simp only [List.foldl_cons]
    rcases List.mem_cons.1 hmem with rfl | hin
    · rw [addFold_filter_preserved uid vs hnotin]
      have hstep : (setUserAccess f uid (some READ)).acl =
          f.acl.filter (fun x => x.id != uid) ++ [{ id := uid, level := READ }] := rfl
      rw [hstep, List.filter_append, List.filter_filter]
      have h1 : List.filter (fun e : AccessEntry => e.id == uid && e.id != uid)
          f.acl = [] := by
        apply List.filter_eq_nil.2
        intro e _
        by_cases he : (e.id == uid) = true
        · simp [he, bne]
        · simp [he]
      have h2 : List.filter (fun e : AccessEntry => e.id == uid)
          [{ id := uid, level := READ }] = [] ++ [{ id := uid, level := READ }] := by
        simp
      rw [h1, h2]
      simp
    · exact ih (setUserAccess f v (some READ)) hndvs hin

theorem toRemoveIds_not_creator (adminIds : List Nat) (f : Folder) :
    f.creatorId ∉ toRemoveIds adminIds f := by
  intro hmem
  unfold toRemoveIds at hmem
  rcases List.mem_map.1 hmem with ⟨e, hef, heq⟩
  rcases List.mem_filter.1 hef with ⟨_, hcond⟩
  simp only [Bool.and_eq_true] at hcond
  rcases hcond with ⟨_, hne⟩
  rw [heq] at hne
  simp [bne] at hne

theorem creator_not_in_toAddIds (adminIds : List Nat) (f : Folder) :
    f.creatorId ∉ toAddIds adminIds f := by
  intro hmem
  unfold toAddIds at hmem
  rcases List.mem_filter.1 hmem with ⟨_, hcond⟩
  simp [bne] at hcond

theorem toAddIds_nodup (phase : Phase) (f : Folder) :
    (toAddIds (phaseAdminUserIds phase) f).Nodup := by
  unfold toAddIds phaseAdminUserIds
  exact (List.nodup_dedup _).filter _

/-- One pass of the per-folder body of `updateFolderAccess`: the id, the
creator and the creator's ACL entries are untouched, and the resulting ACL
mirrors the phase admin set. -/
theorem uFAOne_spec (usersDb : List Nat) (phase : Phase) (f g : Folder)
    (h : updateFolderAccessOne usersDb phase f = some g) :
    g.id = f.id ∧ g.creatorId = f.creatorId ∧
    g.acl.filter (fun e => e.id == f.creatorId) =
      f.acl.filter (fun e => e.id == f.creatorId) ∧
    mirrorsPhaseAdmins phase g := by
  simp only [updateFolderAccessOne] at h
  split at h
  case isFalse => cases h
  case isTrue hall =>
    simp only [Option.some.injEq] at h
    subst h
    have hcr : (((toAddIds (phaseAdminUserIds phase) f).foldl
        (fun g uid => setUserAccess g uid (some READ))
        ((toRemoveIds (phaseAdminUserIds phase) f).foldl
          (fun g uid => setUserAccess g uid none) f))).creatorId = f.creatorId := by
      rw [foldl_setUserAccess_creatorId, foldl_setUserAccess_creatorId]
    refine ⟨?_, hcr, ?_, ?_, ?_⟩
    · rw [foldl_setUserAccess_id, foldl_setUserAccess_id]
    · -- creator entries survive the removal and are skipped by the addition
      rw [addFold_filter_preserved f.creatorId _
        (creator_not_in_toAddIds (phaseAdminUserIds phase) f)]
      rw [removeFold_acl, List.filter_filter]
      apply List.filter_congr'
      intro e _
      by_cases he : (e.id == f.creatorId) = true
      · have hmemn : e.id ∉ toRemoveIds (phaseAdminUserIds phase) f := by
          intro hcon
          rw [beq_iff_eq.1 he] at hcon
          exact toRemoveIds_not_creator (phaseAdminUserIds phase) f hcon
        simp [he, hmemn]
      · simp [he]
    · -- every phase admin other than the creator gets exactly a READ entry
      intro uid hmem hne
      rw [hcr] at hne
      apply addFold_filter_eq
      · exact toAddIds_nodup phase f
      · unfold toAddIds
        exact List.mem_filter.2 ⟨hmem, by simp [bne, hne]⟩
    · -- every remaining entry belongs to an admin or to the creator
      intro e he
      rw [hcr]
      rcases addFold_acl_mem _ _ e he with hin | ⟨_, hin⟩
      · rw [removeFold_acl] at hin
        rcases List.mem_filter.1 hin with ⟨hacl, hcond⟩
        by_cases hadm : e.id ∈ phaseAdminUserIds phase
        · exact Or.inl hadm
        · by_cases hcrid : e.id = f.creatorId
          · exact Or.inr hcrid
          · exfalso
            have hmem2 : e.id ∈ toRemoveIds (phaseAdminUserIds phase) f := by
              unfold toRemoveIds
              apply List.mem_map.2
              refine ⟨e, List.mem_filter.2 ⟨hacl, ?_⟩, rfl⟩
              simp [bne, hcrid, hadm]
            simp [hmem2] at hcond
      · unfold toAddIds at hin
        exact Or.inl (List.mem_filter.1 hin).1

/-- Every folder surviving the loop descends from a folder of the input list
with the same id, the same creator and the same creator ACL entries. -/
theorem loop_link (usersDb : List Nat) (phase : Phase) :
    ∀ (subs : List SubDoc) (fs fs' : List Folder),
      updateFolderAccessLoop usersDb phase subs fs = some fs' →
      ∀ g ∈ fs', ∃ f ∈ fs, f.id = g.id ∧ f.creatorId = g.creatorId ∧
        g.acl.filter (fun e => e.id == f.creatorId) =
          f.acl.filter (fun e => e.id == f.creatorId) := by
  intro subs
  induction subs with
  | nil =>
    intro fs fs' h g hg
    simp only [updateFolderAccessLoop, Option.some.injEq] at h
    subst h
    exact ⟨g, hg, rfl, rfl, rfl⟩
  | cons sub rest ih =>
    intro fs fs' h g hg
    unfold updateFolderAccessLoop at h
    split at h
    · exact ih fs fs' h g hg
    next f0 hfind =>
      split at h
      · cases h
      next f' hone =>
        rcases ih _ fs' h g hg with ⟨f1, hf1mem, hid, hcreator, hacl⟩
        rcases List.mem_map.1 hf1mem with ⟨f2, hf2, heq⟩
        by_cases hcase : (f2.id == sub.folderId) = true
        · rw [if_pos hcase] at heq
          rcases uFAOne_spec usersDb phase f0 f' hone with ⟨hid0, hcr0, hacl0, _⟩
          refine ⟨f0, List.mem_of_find?_eq_some hfind, ?_, ?_, ?_⟩
          · rw [← hid0, heq]
            exact hid
          · rw [← hcr0, heq]
            exact hcreator
          · rw [heq] at hacl0 hcr0
            rw [← hcr0, hacl]
            rw [← hcr0] at hacl0
            exact hacl0
        · rw [if_neg hcase] at heq
          refine ⟨f2, hf2, ?_, ?_, ?_⟩
          · rw [heq]
            exact hid
          · rw [heq]
            exact hcreator
          · rw [heq]
            exact hacl

/-- Once every folder with a given id mirrors the phase admins, the rest of
the loop preserves that. -/
theorem loop_preserves_mirrors_at (usersDb : List Nat) (phase : Phase) (X : Nat) :
    ∀ (subs : List SubDoc) (fs fs' : List Folder),
      updateFolderAccessLoop usersDb phase subs fs = some fs' →
      (∀ g ∈ fs, g.id = X → mirrorsPhaseAdmins phase g) →
      ∀ g ∈ fs', g.id = X → mirrorsPhaseAdmins phase g := by
  intro subs
  induction subs with
  | nil =>
    intro fs fs' h hP
    simp only [updateFolderAccessLoop, Option.some.injEq] at h
    subst h
    exact hP
  | cons sub rest ih =>
    intro fs fs' h hP
    unfold updateFolderAccessLoop at h
    split at h
    · exact ih fs fs' h hP
    next f0 hfind =>
      split at h
      · cases h
      next f' hone =>
        apply ih _ fs' h
        intro g hg hgX
        rcases List.mem_map.1 hg with ⟨f2, hf2, heq⟩
        by_cases hcase : (f2.id == sub.folderId) = true
        · rw [if_pos hcase] at heq
          rcases uFAOne_spec usersDb phase f0 f' hone with ⟨_, _, _, hm1, hm2⟩
          rw [← heq]
          exact ⟨hm1, hm2⟩
        · rw [if_neg hcase] at heq
          exact heq ▸ hP f2 hf2 (by rw [heq]; exact hgX)

/-- After the loop, every folder holding the id of a processed submission's
folder mirrors the phase admin set. -/
theorem loop_mirrors (usersDb : List Nat) (phase : Phase) :
    ∀ (subs : List SubDoc) (fs fs' : List Folder) (sub : SubDoc),
      updateFolderAccessLoop usersDb phase subs fs = some fs' → sub ∈ subs →
      ∀ g ∈ fs', g.id = sub.folderId → mirrorsPhaseAdmins phase g := by
  intro subs
  induction subs with
  | nil =>
    intro fs fs' sub _ hsub
    cases hsub
  | cons s rest ih =>
    intro fs fs' sub h hsub g hg hgid
    unfold updateFolderAccessLoop at h
    rcases List.mem_cons.1 hsub with rfl | hsub'
    · split at h
      next hfind =>
        rcases loop_link usersDb phase rest fs fs' h g hg with ⟨f1, hf1, hid, _, _⟩
        have hnone := List.find?_eq_none.1 hfind f1 hf1
        rw [hid, hgid] at hnone
        simp at hnone
      next f0 hfind =>
        split at h
        · cases h
        next f' hone =>
          apply loop_preserves_mirrors_at usersDb phase sub.folderId rest _ fs' h
            ?_ g hg hgid
          intro g2 hg2 hg2id
          rcases List.mem_map.1 hg2 with ⟨f2, hf2, heq⟩
          by_cases hcase : (f2.id == sub.folderId) = true
          · rw [if_pos hcase] at heq
            rcases uFAOne_spec usersDb phase f0 f' hone with ⟨_, _, _, hm1, hm2⟩
            rw [← heq]
            exact ⟨hm1, hm2⟩
          · rw [if_neg hcase] at heq
            rw [heq, hg2id] at hcase
            simp at hcase
    · split at h
      · exact ih fs fs' sub h hsub' g hg hgid
      next f0 hfind =>
        split at h
        · cases h
        next f' hone => exact ih _ fs' sub h hsub' g hg hgid

/-- In a list of folders with pairwise distinct ids, equal ids force equal
folders. -/
theorem nodup_id_unique :
    ∀ fs : List Folder, (fs.map (fun f => f.id)).Nodup →
      ∀ f g, f ∈ fs → g ∈ fs → f.id = g.id → f = g := by
  intro fs
  induction fs with
  | nil => intro _ f g hf; cases hf
  | cons a rest ih =>
    intro hnd f g hf hg heq
    rcases List.nodup_cons.1 hnd with ⟨hnotin, hndr⟩
    rcases List.mem_cons.1 hf with rfl | hf' <;> rcases List.mem_cons.1 hg with rfl | hg'
    · rfl
    · exfalso
      apply hnotin
      show f.id ∈ List.map (fun fo => fo.id) rest
      rw [heq]
      exact List.mem_map.2 ⟨g, hg', rfl⟩
    · exfalso
      apply hnotin
      show g.id ∈ List.map (fun fo => fo.id) rest
      rw [← heq]
      exact List.mem_map.2 ⟨f, hf', rfl⟩
    · exact ih hndr f g hf' hg' heq

/-- C3: after a phase save, for every submission of that phase whose folder
exists, the folder's ACL mirrors the phase admin set — every user with
WRITE-or-higher access on the phase holds exactly a READ entry, every other
ACL user besides the folder's creator is gone — and the creator's id and ACL
entries are untouched. -/
theorem onPhaseSave_folder_acl_mirrors (usersDb : List Nat) (subsDb : List SubDoc)
    (phase : Phase) (folders folders' : List Folder) (sub : SubDoc) (f g : Folder)
    (hnd : (folders.map (fun fo => fo.id)).Nodup)
    (hrun : onPhaseSave usersDb subsDb phase folders = some folders')
    (hsub : sub ∈ getAllSubmissions subsDb phase)
    (hg : g ∈ folders') (hgid : g.id = sub.folderId)
    (hf : f ∈ folders) (hfid : f.id = sub.folderId) :
    (∀ uid ∈ phaseAdminUserIds phase, uid ≠ g.creatorId →
      g.acl.filter (fun e => e.id == uid) = [{ id := uid, level := READ }]) ∧
    (∀ e ∈ g.acl, e.id ∈ phaseAdminUserIds phase ∨ e.id = g.creatorId) ∧
    g.creatorId = f.creatorId ∧
    g.acl.filter (fun e => e.id == f.creatorId) =
      f.acl.filter (fun e => e.id == f.creatorId) := by
  unfold onPhaseSave updateFolderAccess at hrun
  split at hrun
  case isFalse => cases hrun
  case isTrue hall =>
    have hmir := loop_mirrors usersDb phase _ folders folders' sub hrun hsub g hg hgid
    rcases loop_link usersDb phase _ folders folders' hrun g hg with
      ⟨f1, hf1, hid1, hcr1, hacl1⟩
    have hf1f : f1 = f := by
      apply nodup_id_unique folders hnd f1 f hf1 hf
      rw [hid1, hgid, hfid]
    subst hf1f
    exact ⟨hmir.1, hmir.2, hcr1.symm, by rw [hacl1]⟩

/-- Witness for C3: after `onPhaseSave` for phase 21, folder 40 has dropped
the stray entry of non-admin user 3, granted READ to phase admin 2, and kept
its creator's entry untouched. -/
theorem onPhaseSave_folder_acl_mirrors_witness :
    f3After.acl.filter (fun e => e.id == 2) = [{ id := 2, level := READ }] ∧
    f3After.creatorId = f3.creatorId ∧
    f3After.acl.filter (fun e => e.id == f3.creatorId) =
      f3.acl.filter (fun e => e.id == f3.creatorId) := by
  have h := onPhaseSave_folder_acl_mirrors [1, 2, 3] [sub3] ph3 [f3] [f3After]
    sub3 f3 f3After (by decide) (by decide) (by decide) (by decide) (by decide)
    (by decide) (by decide)
  exact ⟨h.1 2 (by decide) (by decide), h.2.2.1, h.2.2.2⟩

/-! ## C6: `postSubmission` removes the new submission when scoring raises -/

/-- C6: when `createSubmission` succeeds but the subsequent `scoreSubmission`
raises a `GirderException`, `postSubmission` removes the newly created
submission before re-raising, so no submission with the new id remains
stored. -/
theorem postSubmission_atomic_on_scoring_failure
    (env : Env) (st : St) (curUser : Option User) (phase : Phase) (folder : Folder)
    (params : PostSubmissionParams) (apiUrl : String) (u : User) (title0 : String)
    (created : Option String) (creator : User) (submission : SubDoc) (st1 : St)
    (e : Err) (st2 : St)
    (hblock : inactiveBlocked phase curUser = false)
    (huser : curUser = some u)
    (htitle : params.title = some title0)
    (hgroup : (u.groups.contains phase.participantGroupId ||
      hasAccessPhase phase u WRITE) = true)
    (hdate : overrideCreatedDate u params.date = Except.ok created)
    (hcreator : resolveCreator st u params.userId = Except.ok creator)
    (hcreate : createSubmission env st creator phase folder (some title0.trim) created
        none none none none params.meta = Except.ok (submission, st1))
    (hscore : scoreSubmission st1 submission apiUrl = (Except.error e, st2))
    (hgirder : isGirderException e = true) :
    postSubmission env st curUser phase folder params apiUrl =
      (.error e, { st2 with submissions :=
        st2.submissions.filter (fun s => s.id != submission.id) }) ∧
    ((postSubmission env st curUser phase folder params apiUrl).2.submissions.all
      (fun s => s.id != submission.id)) = true := by
  have hgroup2 : (!(u.groups.contains phase.participantGroupId) &&
      !(hasAccessPhase phase u WRITE)) = false := by
    rw [← Bool.not_or, hgroup]
    rfl
  subst huser
  have hmain : postSubmission env st (some u) phase folder params apiUrl =
      (.error e, { st2 with submissions :=
        st2.submissions.filter (fun s => s.id != submission.id) }) := by
    simp only [postSubmission, hblock, htitle, hgroup2, hdate, hcreator,
      hcreate, hscore, hgirder]
    simp [hgirder]
  refine ⟨hmain, ?_⟩
  rw [hmain]
  apply List.all_eq_true.2
  intro s hs
  exact (List.mem_filter.1 hs).2

/-- Witness for C6: with no scoring user configured, the submission created
for the request is removed again and the raised error is the
`GirderException`. -/
theorem postSubmission_atomic_witness :
    postSubmission envId stC6 (some uPart) phW fSub pC6 "api" =
      (.error eC6, { st2C6 with submissions :=
        st2C6.submissions.filter (fun s => s.id != subC6.id) }) ∧
    ((postSubmission envId stC6 (some uPart) phW fSub pC6 "api").2.submissions.all
      (fun s => s.id != subC6.id)) = true :=
  postSubmission_atomic_on_scoring_failure envId stC6 (some uPart) phW fSub pC6 "api"
    uPart "T" none uPart subC6 st1C6 eC6 st2C6
    (by decide) rfl (by decide) (by decide) (by decide) (by decide) (by rfl)
    (by rfl) (by decide)

end Covalic
